import Mathlib

/-!
Shallow embedding of `pkg/document/document.go` (the Yorkie document façade).

The façade orchestrates: the staged `Update` pipeline
(clone → updater → schema validation → size check → commit), change-pack
ingestion (`ApplyChangePack`), local-change truncation, checkpoint
forwarding and garbage collection.

The CRDT root, the presence map, the change/context package and the schema
engine live in sibling packages that are not part of this file's source;
they are modelled from the spec as abstract operations (`CrdtLib`, the
`validate` argument, the `Change.Execute` field).  The façade control flow
itself is translated line by line from `document.go`.
-/

set_option autoImplicit false

namespace Yorkie

/-- Modelled from the spec: `change.Checkpoint` —
`(server_seq, client_seq)`; `Forward(other)` takes the max of each field. -/
structure Checkpoint where
  serverSeq : Nat
  clientSeq : Nat
deriving DecidableEq, Repr

/-- Modelled from the spec: `Forward(other)` takes the max of each field. -/
def Checkpoint.Forward (cp other : Checkpoint) : Checkpoint :=
  { serverSeq := max cp.serverSeq other.serverSeq
    clientSeq := max cp.clientSeq other.clientSeq }

/-- Modelled from the spec: `time.Ticket`-style change ID
`(lamport, delimiter, actor)`. -/
structure Timestamp where
  lamport : Nat
  delimiter : Nat
  actor : String
deriving DecidableEq, Repr

/-- Modelled from the spec: `Next()` increments lamport and delimiter,
keeping the actor. -/
def Timestamp.next (t : Timestamp) : Timestamp :=
  { t with lamport := t.lamport + 1, delimiter := t.delimiter + 1 }

/-- Modelled from the spec: `SyncLamport(remote)` sets lamport to
`max(self, remote) + 1`. -/
def Timestamp.syncLamport (t : Timestamp) (remote : Nat) : Timestamp :=
  { t with lamport := max t.lamport remote + 1 }

/-- Modelled from the spec: a version vector maps actor IDs to lamports.
Only passed through by the façade, never inspected. -/
abbrev VersionVector := List (String × Nat)

/-- Document status (`StatusType` in the source package). -/
inductive StatusType where
  | Detached
  | Attached
  | Removed
deriving DecidableEq, Repr

/-- `Options` from the source: only `DisableGC`. -/
structure Options where
  DisableGC : Bool
deriving DecidableEq, Repr

/-- Modelled from the spec: `types.Rule` is opaque to the façade. -/
abbrev Rule := String

/-- Modelled from the spec: the schema engine result
`{valid, errors}`; each error carries a `Message`. -/
structure ValidationResult where
  Valid : Bool
  Errors : List String
deriving DecidableEq, Repr

/-- Modelled from the spec: a `change.Change` as the façade consumes it —
its client sequence, its ID's lamport, and `Execute`, which applies the
change to a root and a presence map or fails. -/
structure Change (Root Pres : Type) where
  clientSeq : Nat
  lamport : Nat
  Execute : Root → Pres → Except String (Root × Pres)

/-- The canonical state held by `InternalDocument`
(`root, presences, localChanges, checkpoint, changeID, status`). -/
structure InternalDocument (Root Pres : Type) where
  root : Root
  presences : Pres
  localChanges : List (Change Root Pres)
  checkpoint : Checkpoint
  changeID : Timestamp
  status : StatusType

/-- Modelled from the spec: a decoded snapshot produces a root and a
presence map. -/
structure Snapshot (Root Pres : Type) where
  root : Root
  presences : Pres

/-- `change.Pack` as the façade consumes it.  `snapshot = none` models
`len(pack.Snapshot) == 0`. -/
structure Pack (Root Pres : Type) where
  checkpoint : Checkpoint
  changes : List (Change Root Pres)
  snapshot : Option (Snapshot Root Pres)
  versionVector : VersionVector
  isRemoved : Bool

/-- Modelled from the spec: the operations the façade requires of the
CRDT/presence layer (spec §4.2/§4.3): structural deep copy, document
size, and garbage collection under a version vector. -/
structure CrdtLib (Root Pres : Type) where
  DeepCopy : Root → Root
  DeepCopyPresences : Pres → Pres
  DocSizeTotal : Root → Int
  GarbageCollect : Root → VersionVector → Root × Nat

/-- The façade `Document`: canonical state plus the working clones and
configuration. -/
structure Document (Root Pres : Type) where
  doc : InternalDocument Root Pres
  options : Options
  cloneRoot : Option Root
  clonePresences : Option Pres
  MaxSizeLimit : Int
  SchemaRules : List Rule

/-- A Go `interface{}` argument to `Update`'s variadic message, as far as
`messageFromMsgAndArgs` distinguishes them: a string, or any other value
with its `%+v` rendering. -/
inductive GoVal where
  | str (s : String)
  | other (rendered : String)
deriving DecidableEq, Repr

def GoVal.render : GoVal → String
  | .str s => s
  | .other r => r

/-- Modelled: `fmt.Sprintf` verb substitution is Go standard library
behaviour; only which arguments it receives matters here. -/
def goSprintf (format : String) (args : List GoVal) : String :=
  format ++ String.intercalate " " (args.map GoVal.render)

/-- `messageFromMsgAndArgs` from the source.  `Except.error ()` marks the
unchecked type assertion `msgAndArgs[0].(string)` panicking when more than
one argument is given and the first is not a string. -/
def messageFromMsgAndArgs : List GoVal → Except Unit String
  | [] => .ok ""
  | [msg] =>
    match msg with
    | .str s => .ok s
    | .other r => .ok r
  | msg :: rest =>
    match msg with
    | .str s => .ok (goSprintf s rest)
    | .other _ => .error ()

/-- Modelled from the spec: the observable outcome of running the updater
closure inside a `change.Context` — the mutated clones, whether operations
and/or a presence change were recorded, and the frozen `ToChange()`. -/
structure CtxResult (Root Pres : Type) where
  cloneRoot : Root
  clonePresences : Pres
  hasOps : Bool
  hasPresenceChange : Bool
  toChange : Change Root Pres

/-- `ctx.IsPresenceOnlyChange()`: no operations recorded. -/
def CtxResult.IsPresenceOnlyChange {Root Pres : Type} (ctx : CtxResult Root Pres) : Bool :=
  !ctx.hasOps

/-- `ctx.HasChange()`: an operation or a presence change was recorded. -/
def CtxResult.HasChange {Root Pres : Type} (ctx : CtxResult Root Pres) : Bool :=
  ctx.hasOps || ctx.hasPresenceChange

/-- The updater closure: receives the clone root and the clone presences
and either fails or yields the context's accumulated result. -/
abbrev Updater (Root Pres : Type) := Root → Pres → Except String (CtxResult Root Pres)

/-- Errors `Update` can return. -/
inductive UpdateError where
  | DocumentRemoved
  | SchemaValidationFailed (msg : String)
  | DocumentSizeExceedsLimit
  | UpdaterErr (e : String)
  | ExecuteErr (e : String)
deriving DecidableEq, Repr

/-- Outcome of `Update`: success (with the committed change, if any), an
error together with the post-call façade state, or a Go panic. -/
inductive UpdateOutcome (Root Pres : Type) where
  | ok (d : Document Root Pres) (committed : Option (Change Root Pres))
  | err (e : UpdateError) (d : Document Root Pres)
  | panicked

/-- `ensureClone`, root half: rebuild the clone root from the canonical
root when absent (spec §4.2 gives `DeepCopy() -> Root`, so the copy is
modelled total). -/
def Document.ensureCloneRoot {Root Pres : Type} (lib : CrdtLib Root Pres)
    (d : Document Root Pres) : Root :=
  match d.cloneRoot with
  | some r => r
  | none => lib.DeepCopy d.doc.root

/-- `ensureClone`, presences half. -/
def Document.ensureClonePresences {Root Pres : Type} (lib : CrdtLib Root Pres)
    (d : Document Root Pres) : Pres :=
  match d.clonePresences with
  | some p => p
  | none => lib.DeepCopyPresences d.doc.presences

/-- `Document.Update` from the source, line by line: removed-status check;
ensure clones; build the context message (panicking on a bad variadic
argument list); run the updater (invalidating clones on its error); schema
validation; size check; commit.  `validate` stands for the external
package function `schema.ValidateYorkieRuleset`. -/
def Document.Update {Root Pres : Type} (lib : CrdtLib Root Pres)
    (validate : Root → List Rule → ValidationResult)
    (d : Document Root Pres) (updater : Updater Root Pres)
    (msgAndArgs : List GoVal) : UpdateOutcome Root Pres :=
  if d.doc.status = StatusType.Removed then
    .err .DocumentRemoved d
  else
    let cr := d.ensureCloneRoot lib
    let cp := d.ensureClonePresences lib
    let d := { d with cloneRoot := some cr, clonePresences := some cp }
    match messageFromMsgAndArgs msgAndArgs with
    | .error _ => .panicked
    | .ok _msg =>
      match updater cr cp with
      | .error e =>
        .err (.UpdaterErr e) { d with cloneRoot := none, clonePresences := none }
      | .ok ctx =>
        let d := { d with cloneRoot := some ctx.cloneRoot
                          clonePresences := some ctx.clonePresences }
        let schemaFailure : Option String :=
          if ctx.IsPresenceOnlyChange = false ∧ d.SchemaRules ≠ [] then
            let result := validate ctx.cloneRoot d.SchemaRules
            if result.Valid = false then
              some (String.intercalate ", " result.Errors)
            else none
          else none
        match schemaFailure with
        | some msgs =>
          .err (.SchemaValidationFailed msgs)
            { d with cloneRoot := none, clonePresences := none }
        | none =>
          let cloneSize := lib.DocSizeTotal ctx.cloneRoot
          if ctx.IsPresenceOnlyChange = false ∧ 0 < d.MaxSizeLimit ∧
              d.MaxSizeLimit < cloneSize then
            .err .DocumentSizeExceedsLimit
              { d with cloneRoot := none, clonePresences := none }
          else
            if ctx.HasChange = true then
              let c := ctx.toChange
              match c.Execute d.doc.root d.doc.presences with
              | .error e => .err (.ExecuteErr e) d
              | .ok (root', pres') =>
                .ok { d with doc := { d.doc with
                        root := root'
                        presences := pres'
                        localChanges := d.doc.localChanges ++ [c]
                        changeID := d.doc.changeID.next } } (some c)
            else
              .ok d none

/-- `InternalDocument.ApplyChanges` (spec §4.5): for each change,
synchronize the lamport and execute against the canonical state.  Never
touches the local changes.  Presence events are side output only and are
not modelled. -/
def InternalDocument.ApplyChanges {Root Pres : Type} (doc : InternalDocument Root Pres) :
    List (Change Root Pres) → Except String (InternalDocument Root Pres)
  | [] => .ok doc
  | c :: rest =>
    let doc := { doc with changeID := doc.changeID.syncLamport c.lamport }
    match c.Execute doc.root doc.presences with
    | .error e => .error e
    | .ok (root', pres') =>
      InternalDocument.ApplyChanges { doc with root := root', presences := pres' } rest

/-- The first loop of the façade's `applyChanges`: execute each change
against the clones. -/
def execOnClones {Root Pres : Type} (root : Root) (pres : Pres) :
    List (Change Root Pres) → Except String (Root × Pres)
  | [] => .ok (root, pres)
  | c :: rest =>
    match c.Execute root pres with
    | .error e => .error e
    | .ok (root', pres') => execOnClones root' pres' rest

/-- The façade's `applyChanges`: ensure clones, execute the changes on the
clones, then on the canonical state via `InternalDocument.ApplyChanges`. -/
def Document.applyChanges {Root Pres : Type} (lib : CrdtLib Root Pres)
    (d : Document Root Pres) (changes : List (Change Root Pres)) :
    Except String (Document Root Pres) :=
  let cr := d.ensureCloneRoot lib
  let cp := d.ensureClonePresences lib
  match execOnClones cr cp changes with
  | .error e => .error e
  | .ok (cr', cp') =>
    match d.doc.ApplyChanges changes with
    | .error e => .error e
    | .ok doc' =>
      .ok { d with doc := doc', cloneRoot := some cr', clonePresences := some cp' }

/-- Modelled from the spec: `applySnapshot` replaces root and presences
from the decoded snapshot and sets `changeID`'s lamport to the version
vector's entry for this actor. -/
def InternalDocument.applySnapshot {Root Pres : Type} (doc : InternalDocument Root Pres)
    (snapshot : Snapshot Root Pres) (vv : VersionVector) : InternalDocument Root Pres :=
  { doc with
    root := snapshot.root
    presences := snapshot.presences
    changeID := { doc.changeID with lamport := (vv.lookup doc.changeID.actor).getD 0 } }

/-- The source's local-change truncation loop in `ApplyChangePack`: pop
the head while its client sequence is at most the pack checkpoint's. -/
def truncateLocalChanges {Root Pres : Type} (clientSeq : Nat) :
    List (Change Root Pres) → List (Change Root Pres)
  | [] => []
  | c :: rest =>
    if c.clientSeq > clientSeq then c :: rest
    else truncateLocalChanges clientSeq rest

/-- `Document.GarbageCollect` from the source: GC the clone root when
present, then the canonical root; return the canonical count. -/
def Document.GarbageCollect {Root Pres : Type} (lib : CrdtLib Root Pres)
    (d : Document Root Pres) (vector : VersionVector) : Document Root Pres × Nat :=
  let d := { d with cloneRoot := d.cloneRoot.map (fun r => (lib.GarbageCollect r vector).1) }
  let gc := lib.GarbageCollect d.doc.root vector
  ({ d with doc := { d.doc with root := gc.1 } }, gc.2)

/-- `Document.ApplyChangePack` from the source.  The second component of a
successful result records the version vector garbage collection ran with
(`none` when GC did not run), mirroring the call at step 04. -/
def Document.ApplyChangePack {Root Pres : Type} (lib : CrdtLib Root Pres)
    (d : Document Root Pres) (pack : Pack Root Pres) :
    Except String (Document Root Pres × Option VersionVector) :=
  -- 01. Apply remote changes to both the cloneRoot and the document.
  let hasSnapshot := pack.snapshot.isSome
  let applied : Except String (Document Root Pres) :=
    match pack.snapshot with
    | some snapshot =>
      let d := { d with cloneRoot := none, clonePresences := none }
      .ok { d with doc := d.doc.applySnapshot snapshot pack.versionVector }
    | none => Document.applyChanges lib d pack.changes
  match applied with
  | .error e => .error e
  | .ok d1 =>
    -- 02. Remove local changes applied to server.
    let d2 := { d1 with doc := { d1.doc with
      localChanges := truncateLocalChanges pack.checkpoint.clientSeq d1.doc.localChanges } }
    let replayed : Except String (Document Root Pres) :=
      if hasSnapshot then Document.applyChanges lib d2 d2.doc.localChanges else .ok d2
    match replayed with
    | .error e => .error e
    | .ok d3 =>
      -- 03. Update the checkpoint.
      let d4 := { d3 with doc := { d3.doc with
        checkpoint := d3.doc.checkpoint.Forward pack.checkpoint } }
      -- 04. Do Garbage collection.
      let gcStep :=
        if !d.options.DisableGC && !hasSnapshot then
          ((Document.GarbageCollect lib d4 pack.versionVector).1, some pack.versionVector)
        else (d4, none)
      -- 05. Update the status.
      let d5 :=
        if pack.isRemoved then
          { gcStep.1 with doc := { gcStep.1.doc with status := StatusType.Removed } }
        else gcStep.1
      .ok (d5, gcStep.2)

/-!
Concrete instantiation used by witnesses and counterexamples:
`Root := Nat`, `Pres := Nat`.
-/

def lib0 : CrdtLib Nat Nat where
  DeepCopy := id
  DeepCopyPresences := id
  DocSizeTotal := fun r => Int.ofNat r
  GarbageCollect := fun r _ => (r, 0)

def vTrue : Nat → List Rule → ValidationResult :=
  fun _ _ => { Valid := true, Errors := [] }

def vFalse : Nat → List Rule → ValidationResult :=
  fun _ _ => { Valid := false, Errors := ["bad"] }

def mkChange (n : Nat) : Change Nat Nat :=
  { clientSeq := n, lamport := n, Execute := fun r p => .ok (r, p) }

def baseDoc : InternalDocument Nat Nat where
  root := 0
  presences := 0
  localChanges := []
  checkpoint := { serverSeq := 0, clientSeq := 0 }
  changeID := { lamport := 0, delimiter := 0, actor := "a" }
  status := StatusType.Attached

def dAtt : Document Nat Nat where
  doc := baseDoc
  options := { DisableGC := false }
  cloneRoot := none
  clonePresences := none
  MaxSizeLimit := 0
  SchemaRules := []

def uFail : Updater Nat Nat := fun _ _ => .error "boom"

def uNoop : Updater Nat Nat := fun r p =>
  .ok { cloneRoot := r, clonePresences := p, hasOps := false,
        hasPresenceChange := false, toChange := mkChange 1 }

def uOps : Updater Nat Nat := fun r p =>
  .ok { cloneRoot := r + 1, clonePresences := p, hasOps := true,
        hasPresenceChange := false, toChange := mkChange 1 }

/-!
Claim theorems.
-/

/-- Claim C1: whenever `Update` returns an error the canonical state
`{root, presences, localChanges, changeID, checkpoint, status}` (the whole
`InternalDocument`) is exactly its pre-call value; on success the local
changes grow by at most one change, and by exactly the context's change
when the context recorded one. -/
theorem update_atomicity {Root Pres : Type} (lib : CrdtLib Root Pres)
    (validate : Root → List Rule → ValidationResult) (d : Document Root Pres)
    (updater : Updater Root Pres) (args : List GoVal) :
    (∀ e d', Document.Update lib validate d updater args = .err e d' → d'.doc = d.doc) ∧
    (∀ d', Document.Update lib validate d updater args = .ok d' none →
      d'.doc.localChanges = d.doc.localChanges) ∧
    (∀ d' c, Document.Update lib validate d updater args = .ok d' (some c) →
      d'.doc.localChanges = d.doc.localChanges ++ [c]) ∧
    (∀ d' copt ctx,
      updater (d.ensureCloneRoot lib) (d.ensureClonePresences lib) = .ok ctx →
      ctx.HasChange = true →
      Document.Update lib validate d updater args = .ok d' copt →
      copt = some ctx.toChange) := by
  refine ⟨?_, ?_, ?_, ?_⟩
  · intro e d' h
    simp only [Document.Update] at h
    split at h
    · cases h; rfl
    · split at h
      · simp at h
      · split at h
        · cases h; rfl
        · split at h
          · cases h; rfl
          · split at h
            · cases h; rfl
            · split at h
              · split at h
                · cases h; rfl
                · simp at h
              · simp at h
  · intro d' h
    simp only [Document.Update] at h
    split at h
    · simp at h
    · split at h
      · simp at h
      · split at h
        · simp at h
        · split at h
          · simp at h
          · split at h
            · simp at h
            · split at h
              · split at h
                · simp at h
                · simp at h
              · cases h; rfl
  · intro d' c h
    simp only [Document.Update] at h
    split at h
    · simp at h
    · split at h
      · simp at h
      · split at h
        · simp at h
        · split at h
          · simp at h
          · split at h
            · simp at h
            · split at h
              · split at h
                · simp at h
                · cases h; rfl
              · simp at h
  · intro d' copt ctx hu hch h
    simp only [Document.Update] at h
    split at h
    · simp at h
    · split at h
      · simp at h
      · rename_i heqmsg
        split at h
        · rename_i e1 hequ
          rw [hu] at hequ
          simp at hequ
        · rename_i ctx1 hequ
          rw [hu] at hequ
          injection hequ with hctx
          subst hctx
          split at h
          · simp at h
          · split at h
            · simp at h
            · split at h
              · simp at h
              · cases h; rfl

/-- Witness for `update_atomicity`: a concrete failing updater on a
concrete document leaves the canonical state untouched. -/
theorem update_atomicity_witness :
    Document.Update lib0 vTrue dAtt uFail [] = .err (.UpdaterErr "boom") dAtt ∧
    dAtt.doc = dAtt.doc :=
  ⟨rfl, (update_atomicity lib0 vTrue dAtt uFail []).1 (.UpdaterErr "boom") dAtt rfl⟩

def dRem : Document Nat Nat :=
  { dAtt with
    doc := { baseDoc with status := StatusType.Removed },
    cloneRoot := some 5, clonePresences := some 7 }

/-- Claim C2 counterexample: on a removed document with live clones,
`Update` returns an error yet neither clone is set to null — the
removed-status precondition returns before the invalidation code. -/
theorem update_removed_keeps_clones_cex :
    Document.Update lib0 vTrue dRem uFail [] = .err .DocumentRemoved dRem ∧
    dRem.cloneRoot = some 5 ∧ dRem.clonePresences = some 7 :=
  ⟨rfl, rfl, rfl⟩

/-- Claim C2 (amended): an error from the updater, from schema validation,
or from the size check nulls both clones before it is returned; the
removed-status precondition returns the document (clones included)
untouched, and a commit-execution failure leaves the clones populated. -/
theorem update_error_clone_invalidation {Root Pres : Type} (lib : CrdtLib Root Pres)
    (validate : Root → List Rule → ValidationResult) (d : Document Root Pres)
    (updater : Updater Root Pres) (args : List GoVal) (e : UpdateError)
    (d' : Document Root Pres)
    (h : Document.Update lib validate d updater args = .err e d') :
    (((∃ s, e = .UpdaterErr s) ∨ (∃ s, e = .SchemaValidationFailed s) ∨
        e = .DocumentSizeExceedsLimit) →
      d'.cloneRoot = none ∧ d'.clonePresences = none) ∧
    (e = .DocumentRemoved → d' = d) ∧
    ((∃ s, e = .ExecuteErr s) → d'.cloneRoot.isSome ∧ d'.clonePresences.isSome) := by
  simp only [Document.Update] at h
  split at h
  · cases h; refine ⟨?_, ?_, ?_⟩ <;> simp
  · split at h
    · simp at h
    · split at h
      · cases h; refine ⟨?_, ?_, ?_⟩ <;> simp
      · split at h
        · cases h; refine ⟨?_, ?_, ?_⟩ <;> simp
        · split at h
          · cases h; refine ⟨?_, ?_, ?_⟩ <;> simp
          · split at h
            · split at h
              · cases h; refine ⟨?_, ?_, ?_⟩ <;> simp
              · simp at h
            · simp at h

/-- Witness for `update_error_clone_invalidation`: a failing updater on a
concrete document yields nulled clones. -/
theorem update_error_clone_invalidation_witness :
    dAtt.cloneRoot = none ∧ dAtt.clonePresences = none :=
  (update_error_clone_invalidation lib0 vTrue dAtt uFail [] (.UpdaterErr "boom")
      dAtt rfl).1 (Or.inl ⟨"boom", rfl⟩)

def packEmpty : Pack Nat Nat where
  checkpoint := { serverSeq := 3, clientSeq := 1 }
  changes := []
  snapshot := none
  versionVector := []
  isRemoved := false

/-- Claim C3: on a removed document `Update` fails with `DocumentRemoved`
without changing any state and without invoking the updater (the outcome
is identical for any two updaters), while `ApplyChangePack` on the same
document still succeeds (on a snapshot-free pack with no changes) and
still forwards the checkpoint. -/
theorem removed_update_rejected {Root Pres : Type} (lib : CrdtLib Root Pres)
    (validate : Root → List Rule → ValidationResult) (d : Document Root Pres)
    (u1 u2 : Updater Root Pres) (args : List GoVal) (pack : Pack Root Pres)
    (hrem : d.doc.status = StatusType.Removed) :
    Document.Update lib validate d u1 args = .err .DocumentRemoved d ∧
    Document.Update lib validate d u1 args = Document.Update lib validate d u2 args ∧
    (pack.changes = [] → pack.snapshot = none →
      ∃ d' g, Document.ApplyChangePack lib d pack = .ok (d', g) ∧
        d'.doc.checkpoint = d.doc.checkpoint.Forward pack.checkpoint) := by
  refine ⟨?_, ?_, ?_⟩
  · simp [Document.Update, hrem]
  · simp [Document.Update, hrem]
  · intro hchs hsnap
    simp only [Document.ApplyChangePack, hchs, hsnap, Document.applyChanges,
      execOnClones, InternalDocument.ApplyChanges, Option.isSome_none,
      Bool.not_false, Bool.and_true]
    refine ⟨_, _, rfl, ?_⟩
    split <;> split <;> simp [Document.GarbageCollect]

/-- Witness for `removed_update_rejected`: the concrete removed document
rejects a concrete update. -/
theorem removed_update_rejected_witness :
    Document.Update lib0 vTrue dRem uNoop [] = .err .DocumentRemoved dRem :=
  (removed_update_rejected lib0 vTrue dRem uNoop uFail [] packEmpty rfl).1

/-- `InternalDocument.ApplyChanges` never touches the local changes, the
checkpoint or the status. -/
lemma InternalDocument.ApplyChanges_frame {Root Pres : Type}
    (cs : List (Change Root Pres)) :
    ∀ doc doc' : InternalDocument Root Pres, doc.ApplyChanges cs = .ok doc' →
      doc'.localChanges = doc.localChanges ∧ doc'.checkpoint = doc.checkpoint ∧
      doc'.status = doc.status := by
  induction cs with
  | nil =>
    intro doc doc' h
    cases h
    exact ⟨rfl, rfl, rfl⟩
  | cons c rest ih =>
    intro doc doc' h
    simp only [InternalDocument.ApplyChanges] at h
    split at h
    · simp at h
    · simpa using ih _ _ h

/-- The façade's `applyChanges` never touches the local changes, the
checkpoint or the status of the canonical state. -/
lemma Document.applyChanges_frame {Root Pres : Type} (lib : CrdtLib Root Pres)
    (d : Document Root Pres) (cs : List (Change Root Pres))
    (d' : Document Root Pres) (h : Document.applyChanges lib d cs = .ok d') :
    d'.doc.localChanges = d.doc.localChanges ∧ d'.doc.checkpoint = d.doc.checkpoint ∧
    d'.doc.status = d.doc.status := by
  simp only [Document.applyChanges] at h
  split at h
  · simp at h
  · split at h
    · simp at h
    · rename_i doc' heq
      cases h
      simpa using InternalDocument.ApplyChanges_frame cs d.doc doc' heq

/-- Characterization of a successful `ApplyChangePack`: the surviving
local changes are the truncation of the pre-call ones, the checkpoint is
forwarded by the pack's, and GC ran with the pack's version vector exactly
when GC is enabled and the pack carried no snapshot. -/
lemma ApplyChangePack_ok_spec {Root Pres : Type} (lib : CrdtLib Root Pres)
    (d : Document Root Pres) (pack : Pack Root Pres)
    (d' : Document Root Pres) (g : Option VersionVector)
    (h : Document.ApplyChangePack lib d pack = .ok (d', g)) :
    d'.doc.localChanges =
      truncateLocalChanges pack.checkpoint.clientSeq d.doc.localChanges ∧
    d'.doc.checkpoint = d.doc.checkpoint.Forward pack.checkpoint ∧
    (g = some pack.versionVector ↔
      (d.options.DisableGC = false ∧ pack.snapshot = none)) ∧
    (d.options.DisableGC = true ∨ pack.snapshot ≠ none → g = none) := by
  cases hp : pack.snapshot with
  | some snap =>
    simp only [Document.ApplyChangePack, hp, Option.isSome_some, Bool.not_true,
      Bool.and_false, Bool.false_eq_true, if_false] at h
    split at h
    · simp at h
    · rename_i d3 heq3
      obtain ⟨h1, h2, _⟩ := Document.applyChanges_frame lib _ _ _ heq3
      have hl : d3.doc.localChanges =
          truncateLocalChanges pack.checkpoint.clientSeq d.doc.localChanges := by
        simpa [InternalDocument.applySnapshot] using h1
      have hc : d3.doc.checkpoint = d.doc.checkpoint := by
        simpa [InternalDocument.applySnapshot] using h2
      cases h
      refine ⟨?_, ?_, ?_, ?_⟩
      · split <;> simp [hl]
      · split <;> simp [hc]
      · simp [hp]
      · intro _; rfl
  | none =>
    simp [Document.ApplyChangePack, hp] at h
    split at h
    · simp at h
    · rename_i d1 heq1
      obtain ⟨h1, h2, _⟩ := Document.applyChanges_frame lib _ _ _ heq1
      cases h
      refine ⟨?_, ?_, ?_, ?_⟩
      · split <;> split <;> simp [Document.GarbageCollect, h1]
      · split <;> split <;> simp [Document.GarbageCollect, h2]
      · split <;> rename_i hgc
        · simp [hp, hgc]
        · simp [hp, hgc]
      · split <;> rename_i hgc
        · simp [hp, hgc]
        · intro _; rfl

/-- The truncation loop keeps a suffix of the original log. -/
lemma truncateLocalChanges_isSuffix {Root Pres : Type} (n : Nat) :
    ∀ l : List (Change Root Pres), (truncateLocalChanges n l).IsSuffix l := by
  intro l
  induction l with
  | nil => simp [truncateLocalChanges]
  | cons c rest ih =>
    simp only [truncateLocalChanges]
    split
    · exact List.suffix_refl _
    · exact ih.trans (List.suffix_cons c rest)

/-- Under strictly increasing client sequences, every change surviving
truncation has a client sequence above the threshold. -/
lemma truncateLocalChanges_gt {Root Pres : Type} (n : Nat) :
    ∀ l : List (Change Root Pres),
      l.Pairwise (fun a b => a.clientSeq < b.clientSeq) →
      ∀ c ∈ truncateLocalChanges n l, n < c.clientSeq := by
  intro l
  induction l with
  | nil =>
    intro _ c hc
    simp [truncateLocalChanges] at hc
  | cons a rest ih =>
    intro hp c hc
    rw [List.pairwise_cons] at hp
    simp only [truncateLocalChanges] at hc
    split at hc
    · rename_i ha
      rcases List.mem_cons.mp hc with rfl | hcr
      · exact ha
      · exact lt_trans ha (hp.1 c hcr)
    · exact ih hp.2 c hc

/-- Claim C4: when the local changes have strictly increasing client
sequences, a successful `ApplyChangePack(p)` leaves exactly the original
suffix of local changes (order preserved), and every surviving change has
`client_seq > p.checkpoint.client_seq`. -/
theorem apply_change_pack_truncates {Root Pres : Type} (lib : CrdtLib Root Pres)
    (d : Document Root Pres) (pack : Pack Root Pres) (d' : Document Root Pres)
    (g : Option VersionVector)
    (hmono : d.doc.localChanges.Pairwise (fun a b => a.clientSeq < b.clientSeq))
    (h : Document.ApplyChangePack lib d pack = .ok (d', g)) :
    d'.doc.localChanges =
      truncateLocalChanges pack.checkpoint.clientSeq d.doc.localChanges ∧
    d'.doc.localChanges.IsSuffix d.doc.localChanges ∧
    ∀ c ∈ d'.doc.localChanges, pack.checkpoint.clientSeq < c.clientSeq := by
  obtain ⟨h1, -, -, -⟩ := ApplyChangePack_ok_spec lib d pack d' g h
  refine ⟨h1, ?_, ?_⟩
  · rw [h1]
    exact truncateLocalChanges_isSuffix _ _
  · rw [h1]
    exact truncateLocalChanges_gt _ _ hmono

def d4 : Document Nat Nat :=
  { dAtt with doc :=
    { baseDoc with localChanges := [mkChange 1, mkChange 2, mkChange 3] } }

def pack4 : Pack Nat Nat where
  checkpoint := { serverSeq := 5, clientSeq := 2 }
  changes := []
  snapshot := none
  versionVector := [("a", 1)]
  isRemoved := false

def d4res : Document Nat Nat :=
  match Document.ApplyChangePack lib0 d4 pack4 with
  | .ok (x, _) => x
  | .error _ => d4

/-- Witness for `apply_change_pack_truncates`: local changes at client
sequences 1, 2, 3 and a pack checkpoint at client sequence 2 leave exactly
the truncated suffix. -/
theorem apply_change_pack_truncates_witness :
    d4res.doc.localChanges = truncateLocalChanges 2 d4.doc.localChanges :=
  (apply_change_pack_truncates lib0 d4 pack4 d4res (some pack4.versionVector)
    (by simp [d4, dAtt, baseDoc, mkChange, List.pairwise_cons]) rfl).1

/-- Claim C5: after a successful `ApplyChangePack(p)` the checkpoint is at
least the pre-call checkpoint in both fields (`Forward` takes the
per-field maximum, so the checkpoint is monotone nondecreasing). -/
theorem apply_change_pack_checkpoint_monotone {Root Pres : Type}
    (lib : CrdtLib Root Pres) (d : Document Root Pres) (pack : Pack Root Pres)
    (d' : Document Root Pres) (g : Option VersionVector)
    (h : Document.ApplyChangePack lib d pack = .ok (d', g)) :
    d.doc.checkpoint.serverSeq ≤ d'.doc.checkpoint.serverSeq ∧
    d.doc.checkpoint.clientSeq ≤ d'.doc.checkpoint.clientSeq := by
  obtain ⟨-, h2, -, -⟩ := ApplyChangePack_ok_spec lib d pack d' g h
  rw [h2]
  exact ⟨Nat.le_max_left _ _, Nat.le_max_left _ _⟩

/-- Witness for `apply_change_pack_checkpoint_monotone` on the concrete
pack `pack4`. -/
theorem apply_change_pack_checkpoint_monotone_witness :
    d4.doc.checkpoint.serverSeq ≤ d4res.doc.checkpoint.serverSeq ∧
    d4.doc.checkpoint.clientSeq ≤ d4res.doc.checkpoint.clientSeq :=
  apply_change_pack_checkpoint_monotone lib0 d4 pack4 d4res
    (some pack4.versionVector) rfl

/-- Claim C8: a successful `ApplyChangePack(p)` runs garbage collection
with `p.versionVector` (clone root first when present, then the canonical
root, per `Document.GarbageCollect`) exactly when the `disableGC` option
is false and the pack carries no snapshot; otherwise no GC runs. -/
theorem apply_change_pack_gc {Root Pres : Type} (lib : CrdtLib Root Pres)
    (d : Document Root Pres) (pack : Pack Root Pres) (d' : Document Root Pres)
    (g : Option VersionVector)
    (h : Document.ApplyChangePack lib d pack = .ok (d', g)) :
    (g = some pack.versionVector ↔
      (d.options.DisableGC = false ∧ pack.snapshot = none)) ∧
    (d.options.DisableGC = true ∨ pack.snapshot ≠ none → g = none) := by
  obtain ⟨-, -, h3, h4⟩ := ApplyChangePack_ok_spec lib d pack d' g h
  exact ⟨h3, h4⟩

/-- Witness for `apply_change_pack_gc`: the concrete run on `pack4` did
garbage-collect, so GC was enabled and the pack carried no snapshot. -/
theorem apply_change_pack_gc_witness :
    d4.options.DisableGC = false ∧ pack4.snapshot = none :=
  (apply_change_pack_gc lib0 d4 pack4 d4res (some pack4.versionVector) rfl).1.mp rfl

def lib6 : CrdtLib Nat Nat :=
  { lib0 with DocSizeTotal := fun _ => 100 }

def d6 : Document Nat Nat :=
  { dAtt with MaxSizeLimit := 1, SchemaRules := ["r"] }

def ctx6 : CtxResult Nat Nat where
  cloneRoot := 1
  clonePresences := 0
  hasOps := true
  hasPresenceChange := false
  toChange := mkChange 1

/-- Claim C6 counterexample: a non-presence-only update on a document
whose clone size (100) exceeds `MaxSizeLimit` (1) does not fail with
`DocumentSizeExceedsLimit` when schema validation fails first — the
schema check preempts the size check. -/
theorem size_check_preempted_by_schema_cex :
    Document.Update lib6 vFalse d6 uOps [] =
      .err (.SchemaValidationFailed "bad")
        { d6 with cloneRoot := none, clonePresences := none } ∧
    ctx6.hasOps = true ∧
    d6.MaxSizeLimit = 1 ∧ lib6.DocSizeTotal ctx6.cloneRoot = 100 ∧
    (UpdateError.SchemaValidationFailed "bad") ≠ .DocumentSizeExceedsLimit :=
  ⟨rfl, rfl, rfl, rfl, by decide⟩

/-- Claim C6 (amended): provided the updater succeeds and schema
validation passes (no rules configured, or the engine reports valid), a
non-presence-only update with `0 < MaxSizeLimit < DocSize().total` of the
clone invalidates both clones and fails with `DocumentSizeExceedsLimit`;
the check never fires for presence-only changes or when `MaxSizeLimit`
is 0. -/
theorem size_limit_check {Root Pres : Type} (lib : CrdtLib Root Pres)
    (validate : Root → List Rule → ValidationResult) (d : Document Root Pres)
    (updater : Updater Root Pres) (args : List GoVal) (ctx : CtxResult Root Pres)
    (m : String)
    (hmsg : messageFromMsgAndArgs args = .ok m)
    (hst : d.doc.status ≠ StatusType.Removed)
    (hupd : updater (d.ensureCloneRoot lib) (d.ensureClonePresences lib) = .ok ctx) :
    (ctx.hasOps = true →
      (d.SchemaRules = [] ∨ (validate ctx.cloneRoot d.SchemaRules).Valid = true) →
      0 < d.MaxSizeLimit → d.MaxSizeLimit < lib.DocSizeTotal ctx.cloneRoot →
      Document.Update lib validate d updater args =
        .err .DocumentSizeExceedsLimit
          { d with cloneRoot := none, clonePresences := none }) ∧
    (d.MaxSizeLimit ≤ 0 →
      ∀ d', Document.Update lib validate d updater args ≠
        .err .DocumentSizeExceedsLimit d') ∧
    (ctx.hasOps = false →
      ∀ d', Document.Update lib validate d updater args ≠
        .err .DocumentSizeExceedsLimit d') := by
  refine ⟨?_, ?_, ?_⟩
  · intro hops hsch hpos hlt
    have hpo : ctx.IsPresenceOnlyChange = false := by
      simp [CtxResult.IsPresenceOnlyChange, hops]
    rcases hsch with hrules | hvalid
    · simp [Document.Update, hmsg, hupd, hst, hpo, hrules, hpos, hlt]
    · simp [Document.Update, hmsg, hupd, hst, hpo, hvalid, hpos, hlt]
  · intro hle d' h
    simp only [Document.Update] at h
    split at h
    · simp at h
    · split at h
      · simp at h
      · split at h
        · simp at h
        · split at h
          · simp at h
          · split at h
            · rename_i hcond
              exact absurd hcond.2.1 (by omega)
            · split at h
              · split at h
                · simp at h
                · simp at h
              · simp at h
  · intro hops d' h
    simp only [Document.Update] at h
    split at h
    · simp at h
    · split at h
      · simp at h
      · split at h
        · simp at h
        · rename_i ctx1 hequ
          rw [hupd] at hequ
          injection hequ with hctx
          subst hctx
          split at h
          · simp at h
          · split at h
            · rename_i hcond
              have : ctx.IsPresenceOnlyChange = true := by
                simp [CtxResult.IsPresenceOnlyChange, hops]
              simp [this] at hcond
            · split at h
              · split at h
                · simp at h
                · simp at h
              · simp at h

def d6b : Document Nat Nat :=
  { dAtt with MaxSizeLimit := 1 }

/-- Witness for `size_limit_check`: with no schema rules, limit 1 and
clone size 100, the concrete update fails with
`DocumentSizeExceedsLimit` and nulled clones. -/
theorem size_limit_check_witness :
    Document.Update lib6 vTrue d6b uOps [] =
      .err .DocumentSizeExceedsLimit
        { d6b with cloneRoot := none, clonePresences := none } :=
  (size_limit_check lib6 vTrue d6b uOps [] ctx6 "" rfl (by decide) rfl).1
    rfl (Or.inl rfl) (by decide) (by decide)

/-- Claim C7: schema validation runs on the clone root exactly when the
change is not presence-only and rules are configured: when it reports
invalid, `Update` invalidates both clones and fails with
`SchemaValidationFailed` carrying the concatenated messages; when it is
skipped, `Update` never fails with `SchemaValidationFailed` and its
outcome does not depend on the validation engine at all. -/
theorem schema_validation_check {Root Pres : Type} (lib : CrdtLib Root Pres)
    (validate validate' : Root → List Rule → ValidationResult)
    (d : Document Root Pres) (updater : Updater Root Pres) (args : List GoVal)
    (ctx : CtxResult Root Pres) (m : String)
    (hmsg : messageFromMsgAndArgs args = .ok m)
    (hst : d.doc.status ≠ StatusType.Removed)
    (hupd : updater (d.ensureCloneRoot lib) (d.ensureClonePresences lib) = .ok ctx) :
    (ctx.hasOps = true → d.SchemaRules ≠ [] →
      (validate ctx.cloneRoot d.SchemaRules).Valid = false →
      Document.Update lib validate d updater args =
        .err (.SchemaValidationFailed
            (String.intercalate ", " (validate ctx.cloneRoot d.SchemaRules).Errors))
          { d with cloneRoot := none, clonePresences := none }) ∧
    ((ctx.hasOps = false ∨ d.SchemaRules = []) →
      (∀ s d', Document.Update lib validate d updater args ≠
        .err (.SchemaValidationFailed s) d') ∧
      Document.Update lib validate d updater args =
        Document.Update lib validate' d updater args) := by
  constructor
  · intro hops hrules hinvalid
    have hpo : ctx.IsPresenceOnlyChange = false := by
      simp [CtxResult.IsPresenceOnlyChange, hops]
    simp [Document.Update, hmsg, hupd, hst, hpo, hrules, hinvalid]
  · intro hskip
    have hcond : ¬(ctx.IsPresenceOnlyChange = false ∧ d.SchemaRules ≠ []) := by
      rcases hskip with hops | hrules
      · simp [CtxResult.IsPresenceOnlyChange, hops]
      · simp [hrules]
    constructor
    · intro s d' h
      simp only [Document.Update] at h
      split at h
      · simp at h
      · split at h
        · simp at h
        · split at h
          · simp at h
          · rename_i ctx1 hequ
            rw [hupd] at hequ
            injection hequ with hctx
            subst hctx
            split at h
            · rename_i hsc
              rw [if_neg hcond] at hsc
              simp at hsc
            · split at h
              · simp at h
              · split at h
                · split at h
                  · simp at h
                  · simp at h
                · simp at h
    · simp only [Document.Update, hmsg, hupd]
      rw [if_neg hst, if_neg hst, if_neg hcond, if_neg hcond]

/-- Witness for `schema_validation_check`: one configured rule and an
engine reporting invalid make the concrete update fail with the joined
message and nulled clones. -/
def d7 : Document Nat Nat :=
  { dAtt with SchemaRules := ["r"] }

theorem schema_validation_check_witness :
    Document.Update lib0 vFalse d7 uOps [] =
      .err (.SchemaValidationFailed "bad")
        { d7 with cloneRoot := none, clonePresences := none } :=
  (schema_validation_check lib0 vFalse vTrue d7 uOps [] ctx6 "" rfl (by decide)
    rfl).1 rfl (by decide) rfl

def ctxNoop : CtxResult Nat Nat where
  cloneRoot := 0
  clonePresences := 0
  hasOps := false
  hasPresenceChange := false
  toChange := mkChange 1

/-- Claim C9: when the updater completes without error and records
neither an operation nor a presence change, `Update` succeeds, commits
nothing, and leaves the canonical `InternalDocument` (root, presences,
localChanges, changeID, checkpoint, status) unchanged. -/
theorem noop_update_frame {Root Pres : Type} (lib : CrdtLib Root Pres)
    (validate : Root → List Rule → ValidationResult) (d : Document Root Pres)
    (updater : Updater Root Pres) (args : List GoVal) (ctx : CtxResult Root Pres)
    (m : String)
    (hmsg : messageFromMsgAndArgs args = .ok m)
    (hst : d.doc.status ≠ StatusType.Removed)
    (hupd : updater (d.ensureCloneRoot lib) (d.ensureClonePresences lib) = .ok ctx)
    (hops : ctx.hasOps = false) (hpc : ctx.hasPresenceChange = false) :
    Document.Update lib validate d updater args =
      .ok { d with cloneRoot := some ctx.cloneRoot,
                   clonePresences := some ctx.clonePresences } none ∧
    ({ d with cloneRoot := some ctx.cloneRoot,
              clonePresences := some ctx.clonePresences } : Document Root Pres).doc
      = d.doc := by
  have hpo : ctx.IsPresenceOnlyChange = true := by
    simp [CtxResult.IsPresenceOnlyChange, hops]
  have hhc : ctx.HasChange = false := by
    simp [CtxResult.HasChange, hops, hpc]
  refine ⟨?_, rfl⟩
  simp [Document.Update, hmsg, hupd, hst, hpo, hhc]

/-- Witness for `noop_update_frame`: the concrete no-op updater succeeds
and leaves the canonical state alone. -/
theorem noop_update_frame_witness :
    Document.Update lib0 vTrue dAtt uNoop [] =
      .ok { dAtt with cloneRoot := some 0, clonePresences := some 0 } none :=
  (noop_update_frame lib0 vTrue dAtt uNoop [] ctxNoop "" rfl (by decide)
    rfl rfl rfl).1

/-- Claim C10: calling `Update` with more than one message argument whose
first argument is not a string reaches the unchecked type assertion in
`messageFromMsgAndArgs` and panics instead of returning an error. -/
theorem update_message_type_assertion_panics :
    messageFromMsgAndArgs [GoVal.other "1", GoVal.other "2"] = .error () ∧
    Document.Update lib0 vTrue dAtt uNoop [GoVal.other "1", GoVal.other "2"] =
      UpdateOutcome.panicked :=
  ⟨rfl, rfl⟩

end Yorkie
